import Mathlib

/-!
Verification of the worker-pool workload generator (`disk_cleaner.py`).

The development shallowly embeds the core of the program:
* `process_task` — the task-dispatch computation (hash / math / sort / default),
  with the `random` module modelled as explicit streams of outcomes
  (`RandomSource`) and `hashlib.sha256` modelled by a full SHA-256
  implementation over `Nat`;
* `start_workers` — worker spawning (identities `0..min(count,cpu)-1`);
* `worker_function` — the worker loop with its `try/except queue.Empty`
  structure, modelled as a fuel-indexed loop over outcome streams;
* the task queue (`queue.Queue`, a FIFO buffer) as a list;
* a small-step interleaving semantics (`PoolStep`) for the pool state
  (queue, metrics, in-flight tasks, `running` flag) used for the global
  invariants.
-/

/-! ## Randomness model

`random.random()` returns a float in `[0, 1)`; `random.randint(a, b)` returns
an integer in `[a, b]`.  Each call site reads the next outcome from a stream;
a `RandomSource` fixes all outcomes, and theorems quantify over all sources,
i.e. over every possible outcome of the draws. -/

structure RandomSource where
  floats : ℕ → ℚ
  ints : ℕ → ℕ
  floats_mem : ∀ n, 0 ≤ floats n ∧ floats n < 1

/-- Model of `random.randint(lo, hi)` (inclusive bounds), reading raw entropy
from the `ints` stream at position `k`. -/
def randint (src : RandomSource) (k lo hi : ℕ) : ℕ :=
  lo + src.ints k % (hi - lo + 1)

theorem randint_lower (src : RandomSource) (k lo hi : ℕ) : lo ≤ randint src k lo hi :=
  Nat.le_add_right lo _

theorem randint_upper (src : RandomSource) (k lo hi : ℕ) (h : lo ≤ hi) :
    randint src k lo hi ≤ hi := by
  have hspan : 0 < hi - lo + 1 := Nat.succ_pos _
  have hmod : src.ints k % (hi - lo + 1) ≤ hi - lo :=
    Nat.lt_succ_iff.mp (Nat.mod_lt _ hspan)
  calc lo + src.ints k % (hi - lo + 1) ≤ lo + (hi - lo) := Nat.add_le_add_left hmod lo
    _ = hi := Nat.add_sub_cancel' h

/-! ## PoolTask and result model

A task is the dictionary with keys "id", "type" and "timestamp"; any of
the fields used by `process_task` may be absent (`task.get` with a default). -/

structure PoolTask where
  type? : Option String
  id? : Option ℕ
  timestamp : ℚ
deriving DecidableEq

/-- The result of one task: a hex digest string (hash), an integer sum (math),
or a floating value (sort / default branch). -/
inductive TaskResult where
  | digest (hex : String)
  | intSum (n : ℕ)
  | fval (q : ℚ)
deriving DecidableEq

/-! ## SHA-256 (model of `hashlib.sha256(...).hexdigest()`)

A byte-level SHA-256 over `Nat`, with 32-bit words represented as naturals
reduced modulo `2^32`. -/

def w32 : ℕ := 2 ^ 32

/-- Right rotation of a 32-bit word. -/
def rotr32 (x n : ℕ) : ℕ := (x >>> n ||| x <<< (32 - n)) % w32

/-- Round constants: fractional parts of the cube roots of the first 64 primes. -/
def sha256K : List ℕ :=
  [1116352408, 1899447441, 3049323471, 3921009573, 961987163, 1508970993,
   2453635748, 2870763221, 3624381080, 310598401, 607225278, 1426881987,
   1925078388, 2162078206, 2614888103, 3248222580, 3835390401, 4022224774,
   264347078, 604807628, 770255983, 1249150122, 1555081692, 1996064986,
   2554220882, 2821834349, 2952996808, 3210313671, 3336571891, 3584528711,
   113926993, 338241895, 666307205, 773529912, 1294757372, 1396182291,
   1695183700, 1986661051, 2177026350, 2456956037, 2730485921, 2820302411,
   3259730800, 3345764771, 3516065817, 3600352804, 4094571909, 275423344,
   430227734, 506948616, 659060556, 883997877, 958139571, 1322822218,
   1537002063, 1747873779, 1955562222, 2024104815, 2227730452, 2361852424,
   2428436474, 2756734187, 3204031479, 3329325298]

/-- Initial hash values: fractional parts of the square roots of the first 8 primes. -/
def sha256H0 : List ℕ :=
  [1779033703, 3144134277, 1013904242, 2773480762,
   1359893119, 2600822924, 528734635, 1541459225]

/-- SHA-256 padding: append `0x80`, zero bytes up to 56 mod 64, then the
bit length as 8 big-endian bytes. -/
def padBytes (msg : List ℕ) : List ℕ :=
  let ml := msg.length * 8
  let zeros := (56 + 64 - (msg.length + 1) % 64) % 64
  msg ++ [128] ++ List.replicate zeros 0 ++
    (List.range 8).map (fun i => ml >>> (8 * (7 - i)) % 256)

/-- Group bytes into 32-bit big-endian words. -/
def bytesToWords : List ℕ → List ℕ
  | a :: b :: c :: d :: rest => (a <<< 24 ||| b <<< 16 ||| c <<< 8 ||| d) :: bytesToWords rest
  | _ => []

/-- Split a list into chunks of 64 elements (fuel-indexed). -/
def chunksGo : ℕ → List ℕ → List (List ℕ)
  | 0, _ => []
  | n + 1, l => l.take 64 :: chunksGo n (l.drop 64)

def chunks64 (l : List ℕ) : List (List ℕ) := chunksGo ((l.length + 63) / 64) l

def smallSigma0 (x : ℕ) : ℕ := rotr32 x 7 ^^^ rotr32 x 18 ^^^ x >>> 3

def smallSigma1 (x : ℕ) : ℕ := rotr32 x 17 ^^^ rotr32 x 19 ^^^ x >>> 10

/-- Extend the 16-word message schedule to 64 words. -/
def extendW : ℕ → List ℕ → List ℕ
  | 0, w => w
  | n + 1, w =>
    let i := w.length
    let nw := (w.getD (i - 16) 0 + smallSigma0 (w.getD (i - 15) 0) +
      w.getD (i - 7) 0 + smallSigma1 (w.getD (i - 2) 0)) % w32
    extendW n (w ++ [nw])

def bigSigma0 (x : ℕ) : ℕ := rotr32 x 2 ^^^ rotr32 x 13 ^^^ rotr32 x 22

def bigSigma1 (x : ℕ) : ℕ := rotr32 x 6 ^^^ rotr32 x 11 ^^^ rotr32 x 25

def chFn (x y z : ℕ) : ℕ := (x &&& y) ^^^ ((x ^^^ (w32 - 1)) &&& z)

def majFn (x y z : ℕ) : ℕ := (x &&& y) ^^^ (x &&& z) ^^^ (y &&& z)

/-- One round of the SHA-256 compression function on state `[a,b,c,d,e,f,g,h]`. -/
def sha256Round (st : List ℕ) (k w : ℕ) : List ℕ :=
  match st with
  | [a, b, c, d, e, f, g, h] =>
    let t1 := (h + bigSigma1 e + chFn e f g + k + w) % w32
    let t2 := (bigSigma0 a + majFn a b c) % w32
    [(t1 + t2) % w32, a, b, c, (d + t1) % w32, e, f, g]
  | other => other

/-- Process one 64-byte chunk, updating the 8-word hash state. -/
def processChunk (h : List ℕ) (chunk : List ℕ) : List ℕ :=
  let w := extendW 48 (bytesToWords chunk)
  let st := (sha256K.zip w).foldl (fun st kw => sha256Round st kw.1 kw.2) h
  (h.zip st).map (fun p => (p.1 + p.2) % w32)

def sha256Words (msg : List ℕ) : List ℕ :=
  (chunks64 (padBytes msg)).foldl processChunk sha256H0

def hexDigitChar (n : ℕ) : Char :=
  if n < 10 then Char.ofNat (48 + n) else Char.ofNat (87 + n)

/-- A 32-bit word as 8 lowercase hex characters. -/
def word8Hex (x : ℕ) : List Char :=
  (List.range 8).map (fun i => hexDigitChar (x >>> (4 * (7 - i)) % 16))

/-- Model of `str.encode()` for the ASCII strings this program hashes
(decimal representations of task ids): one byte per character. -/
def strBytes (s : String) : List ℕ := s.data.map Char.toNat

/-- Model of `hashlib.sha256(s.encode()).hexdigest()`. -/
def sha256_hexdigest (s : String) : String :=
  String.mk (((sha256Words (strBytes s)).map word8Hex).flatten)

/-! ## `process_task` (lines 80-92)

Within one call the windows of the two outcome streams are: `ints 0` is the
default-id `randint(1, 1000000)` (evaluated as the default argument of
`task.get`), `ints 1..1000` are the math draws, and `floats 0..4999` are the
sort (and default-branch) draws. -/

/-- Model of task.get("id", random.randint(1, 1000000)) — line 82. -/
def effective_id (task : PoolTask) (src : RandomSource) : ℕ :=
  task.id?.getD (randint src 0 1 1000000)

/-- The draws [random.random() for _ in range(5000)] — line 89. -/
def sort_draws (src : RandomSource) : List ℚ :=
  (List.range 5000).map src.floats

/-- The draws of sum(random.randint(1, 100) for _ in range(1000)) — line 87. -/
def math_draws (src : RandomSource) : List ℕ :=
  (List.range 1000).map (fun n => randint src (n + 1) 1 100)

/-- Model of process_task(self, task, worker_id) — lines 80-92.  The
`worker_id` is a parameter of the source function but is not used by it. -/
def process_task (task : PoolTask) (worker_id : ℕ) (src : RandomSource) : TaskResult :=
  let task_type := task.type?.getD "unknown"
  let task_id := effective_id task src
  if task_type = "hash" then
    .digest (sha256_hexdigest (Nat.repr task_id))
  else if task_type = "math" then
    .intSum (math_draws src).sum
  else if task_type = "sort" then
    let arr := sort_draws src
    .fval ((List.insertionSort (· ≤ ·) arr).getD (arr.length / 2) 0)
  else
    .fval (src.floats 0)

/-! ## `start_workers` (lines 94-99)

`start_workers(count)` spawns `min(count, cpu_count)` threads running
`worker_function(i)` for `i` in `range(min(count, cpu_count))` and appends
each thread handle to `self.workers`.  A handle is modelled by the worker
identity it was spawned with. -/

structure WorkerHandle where
  worker_id : ℕ
deriving DecidableEq

/-- The identities the `for i in range(min(count, self.cpu_count))` loop
spawns. -/
def start_workers_ids (count cpu_count : ℕ) : List ℕ :=
  List.range (min count cpu_count)

/-- The effect of `start_workers` on the workers list (line 99). -/
def start_workers (workers : List WorkerHandle) (count cpu_count : ℕ) : List WorkerHandle :=
  workers ++ (start_workers_ids count cpu_count).map WorkerHandle.mk

/-! ## `worker_function` (lines 71-78)

The loop `while self.running: try: task = get(timeout=1); result =
process_task(...); metrics.append(result) except queue.Empty: continue`,
modelled as a fuel-indexed loop.  Iteration `k` reads the `running` flag,
the queue outcome (`Empty` timeout or a task) and the dispatch outcome
(a result, or an exception — the `try` block catches only `queue.Empty`,
so any exception from the dispatch propagates out of the loop). -/

inductive TakeOutcome where
  | empty
  | task (t : PoolTask)
deriving DecidableEq

inductive DispatchOutcome where
  | ok (r : TaskResult)
  | exn (e : String)
deriving DecidableEq

inductive WorkerExit where
  | stopped
  | fuel_out
  | crashed (e : String)
deriving DecidableEq

/-- The worker loop.  Returns how the loop ended together with the list of
results this worker appended to its metrics partition. -/
def worker_function (running : ℕ → Bool) (take : ℕ → TakeOutcome)
    (dispatch : ℕ → PoolTask → DispatchOutcome) :
    ℕ → ℕ → List TaskResult → WorkerExit × List TaskResult
  | 0, _, acc => (.fuel_out, acc)
  | fuel + 1, k, acc =>
    if running k then
      match take k with
      | .empty => worker_function running take dispatch fuel (k + 1) acc
      | .task t =>
        match dispatch k t with
        | .ok r => worker_function running take dispatch fuel (k + 1) (acc ++ [r])
        | .exn e => (.crashed e, acc)
    else (.stopped, acc)

/-! ## The task queue (`queue.Queue`, line 21)

`queue.Queue` is the thread-safe FIFO channel of the Python standard library;
it is modelled by its documented FIFO semantics: a list with `put`
appending at the tail and `get` removing at the head. -/

abbrev TaskQueue := List PoolTask

def queue_put (q : TaskQueue) (t : PoolTask) : TaskQueue := q ++ [t]

/-- A successful `get`: the head task and the remaining queue, or `none`
when the queue is empty (the `queue.Empty` timeout). -/
def queue_take : TaskQueue → Option (PoolTask × TaskQueue)
  | [] => none
  | t :: rest => some (t, rest)

/-- Repeatedly `take` until the queue reports empty (fuel-indexed). -/
def drain : ℕ → TaskQueue → List PoolTask
  | 0, _ => []
  | n + 1, q =>
    match queue_take q with
    | none => []
    | some (t, q') => t :: drain n q'

/-! ## Pool-level small-step semantics

A global state for the orchestrator/pool interaction: the queue, the number
of tasks ever enqueued, the metrics appends (key/result pairs, in
chronological order — the key is the string "worker_<id>" of line 76),
the dequeued-but-not-yet-recorded tasks per worker, the number of spawned
workers and the `running` flag. -/

/-- The metrics key "worker_" followed by the decimal worker id — line 76. -/
def worker_key (i : ℕ) : String := "worker_" ++ Nat.repr i

structure PoolState where
  queue : List PoolTask
  enqueued : ℕ
  records : List (String × TaskResult)
  in_flight : List (ℕ × PoolTask)
  num_workers : ℕ
  running : Bool

/-- The freshly constructed analyzer: empty queue, empty metrics, no
workers, `running = True` (line 23). -/
def init_state : PoolState :=
  { queue := [], enqueued := 0, records := [], in_flight := [],
    num_workers := 0, running := true }

/-- The effect of `stop_workers` on the shared state: it sets
`running = False` (line 102); the joins (line 103-104) are bounded waits
that change no shared data. -/
def stop_workers (s : PoolState) : PoolState := { s with running := false }

/-- One atomic step of any thread.  `dequeue` and `record` split one worker
iteration at its suspension point: the task is in flight between its `get`
and the metrics append; `crash` is an uncaught exception between the two,
which loses the in-flight task and records nothing. -/
inductive PoolStep : PoolState → PoolState → Prop where
  | start (s : PoolState) (count cpu : ℕ) (hn : s.num_workers = 0) (hc : 0 < cpu) :
      PoolStep s { s with num_workers := min count cpu }
  | put (s : PoolState) (t : PoolTask) :
      PoolStep s { s with queue := s.queue ++ [t], enqueued := s.enqueued + 1 }
  | dequeue (s : PoolState) (i : ℕ) (t : PoolTask) (rest : List PoolTask)
      (hw : i < s.num_workers) (hq : s.queue = t :: rest)
      (hf : ∀ p ∈ s.in_flight, p.1 ≠ i) :
      PoolStep s { s with queue := rest, in_flight := (i, t) :: s.in_flight }
  | record (s : PoolState) (i : ℕ) (t : PoolTask) (src : RandomSource)
      (l1 l2 : List (ℕ × PoolTask)) (hf : s.in_flight = l1 ++ (i, t) :: l2) :
      PoolStep s { s with records := s.records ++ [(worker_key i, process_task t i src)],
                          in_flight := l1 ++ l2 }
  | crash (s : PoolState) (i : ℕ) (t : PoolTask) (l1 l2 : List (ℕ × PoolTask))
      (hf : s.in_flight = l1 ++ (i, t) :: l2) :
      PoolStep s { s with in_flight := l1 ++ l2 }
  | stop (s : PoolState) :
      PoolStep s (stop_workers s)

/-- States reachable from the freshly constructed analyzer. -/
def Reachable (s : PoolState) : Prop :=
  Relation.ReflTransGen PoolStep init_state s

/-- Total number of results recorded across all metrics partitions. -/
def total_results (s : PoolState) : ℕ := s.records.length

/-! ## Spec-side definition for the sort claim

The claim reads: "the result equals the lower-median of the generated
5000-element array: the element at the lower-middle index of the sorted
array (for even length, the lower of the two middle positions)".  For a
0-based sorted array of length `n` the lower-middle index is `(n - 1) / 2`
(for even `n`, the lower of the two middle positions `n/2 - 1` and `n/2`). -/
def lowerMedian (arr : List ℚ) : ℚ :=
  (List.insertionSort (· ≤ ·) arr).getD ((arr.length - 1) / 2) 0

/-- A concrete random source: float draw `i` is `min i 4999 / 5000 ∈ [0, 1)`,
int draws are all `0`. -/
def rampSource : RandomSource where
  floats := fun i => ((min i 4999 : ℕ) : ℚ) / 5000
  ints := fun _ => 0
  floats_mem := by
    intro n
    constructor
    · positivity
    · rw [div_lt_one (by norm_num)]
      exact_mod_cast lt_of_le_of_lt (min_le_right n 4999) (by norm_num)

/-! ## Theorems -/

set_option maxRecDepth 8000 in
theorem sha256_hexdigest_42 :
    sha256_hexdigest (Nat.repr 42) =
      "73475cb40a568e8da8a045ced110137e159f890ac4da883b6b17dc651b3a8049" := by decide

/-- C2: for every task of kind `hash` with id `i`, the result is the hex digest
of SHA-256 applied to the decimal string of `i`; it does not depend on the
random draws or on the worker (two runs on the same id give the same digest),
and for id `42` the digest evaluates to the concrete SHA-256 value of `"42"`. -/
theorem hash_result_deterministic (i : ℕ) (ts ts' : ℚ) (w w' : ℕ) (src src' : RandomSource) :
    process_task ⟨some "hash", some i, ts⟩ w src = .digest (sha256_hexdigest (Nat.repr i)) ∧
    process_task ⟨some "hash", some i, ts⟩ w src = process_task ⟨some "hash", some i, ts'⟩ w' src' ∧
    sha256_hexdigest (Nat.repr 42) =
      "73475cb40a568e8da8a045ced110137e159f890ac4da883b6b17dc651b3a8049" :=
  have h : ∀ (u : ℚ) (v : ℕ) (s : RandomSource),
      process_task ⟨some "hash", some i, u⟩ v s = .digest (sha256_hexdigest (Nat.repr i)) :=
    fun _ _ _ => rfl
  ⟨h ts w src, (h ts w src).trans (h ts' w' src').symm, sha256_hexdigest_42⟩

/-- C3: for every task of kind `math` and every possible outcome of the random
draws, the result is the sum of exactly 1000 pseudo-random integers in
`[1, 100]`, hence an integer in `[1000, 100000]`. -/
theorem math_result_range (src : RandomSource) (oid : Option ℕ) (ts : ℚ) (w : ℕ) :
    process_task ⟨some "math", oid, ts⟩ w src = .intSum (math_draws src).sum ∧
    (math_draws src).length = 1000 ∧
    (∀ d ∈ math_draws src, 1 ≤ d ∧ d ≤ 100) ∧
    1000 ≤ (math_draws src).sum ∧ (math_draws src).sum ≤ 100000 := by
  have hlen : (math_draws src).length = 1000 := by simp [math_draws]
  have hmem : ∀ d ∈ math_draws src, 1 ≤ d ∧ d ≤ 100 := by
    intro d hd
    simp only [math_draws, List.mem_map, List.mem_range] at hd
    obtain ⟨n, -, rfl⟩ := hd
    exact ⟨randint_lower src (n + 1) 1 100, randint_upper src (n + 1) 1 100 (by norm_num)⟩
  have hlow : 1000 ≤ (math_draws src).sum := by
    have := List.card_nsmul_le_sum (math_draws src) 1 (fun x hx => (hmem x hx).1)
    simpa [hlen] using this
  have hhigh : (math_draws src).sum ≤ 100000 := by
    have := List.sum_le_card_nsmul (math_draws src) 100 (fun x hx => (hmem x hx).2)
    simpa [hlen] using this
  exact ⟨rfl, hlen, hmem, hlow, hhigh⟩

theorem sort_draws_length (src : RandomSource) : (sort_draws src).length = 5000 := by
  simp [sort_draws]

/-- Unfolding of the sort branch: the result is the element at index
`len(arr) // 2` of the sorted array. -/
theorem sort_result_unfold (src : RandomSource) (oid : Option ℕ) (ts : ℚ) (w : ℕ) :
    process_task ⟨some "sort", oid, ts⟩ w src =
      .fval ((List.insertionSort (· ≤ ·) (sort_draws src)).getD ((sort_draws src).length / 2) 0) :=
  rfl

/-- The sort branch returns the element at index `len(arr)//2 = 2500` of the
sorted array. -/
theorem sort_result_eq (src : RandomSource) (oid : Option ℕ) (ts : ℚ) (w : ℕ) :
    process_task ⟨some "sort", oid, ts⟩ w src =
      .fval ((List.insertionSort (· ≤ ·) (sort_draws src)).getD 2500 0) := by
  rw [sort_result_unfold, sort_draws_length]

/-- The concrete 5000-element array drawn by `rampSource`: value `i / 5000` at
position `i`, already in ascending order. -/
def rampList : List ℚ := (List.range 5000).map (fun i : ℕ => (i : ℚ) / 5000)

theorem ramp_draws : sort_draws rampSource = rampList := by
  unfold sort_draws rampList
  apply List.map_congr_left
  intro a ha
  have h : a ≤ 4999 := Nat.lt_succ_iff.mp (List.mem_range.mp ha)
  simp only [rampSource]
  rw [Nat.min_eq_left h]

theorem ramp_sorted : rampList.Sorted (· ≤ ·) :=
  List.Pairwise.map _ (fun a b hab => by gcongr) (List.pairwise_lt_range 5000)

theorem ramp_sorted_self : List.insertionSort (· ≤ ·) rampList = rampList :=
  List.Sorted.insertionSort_eq ramp_sorted

theorem rampList_getD (k : ℕ) (hk : k < 5000) : rampList.getD k 0 = (k : ℚ) / 5000 := by
  unfold rampList
  rw [List.getD_eq_getElem?_getD, List.getElem?_map, List.getElem?_range hk]
  rfl

theorem rampList_length : rampList.length = 5000 := by simp [rampList]

/-- C1 counterexample: at the concrete random source `rampSource` the sort
result is the element at index 2500 of the sorted array (value `1/2`), which
differs from the lower-median (index 2499, value `2499/5000`). -/
theorem sort_not_lower_median :
    process_task ⟨some "sort", some 1, 0⟩ 0 rampSource ≠
      .fval (lowerMedian (sort_draws rampSource)) := by
  rw [sort_result_eq, ramp_draws]
  unfold lowerMedian
  rw [ramp_sorted_self, rampList_length]
  have h49 : (5000 - 1) / 2 = 2499 := by norm_num
  rw [h49, rampList_getD 2500 (by norm_num), rampList_getD 2499 (by norm_num)]
  simp only [ne_eq, TaskResult.fval.injEq]
  norm_num

/-- C1 amended: for every task of kind `sort` and every outcome of the 5000
draws, the result is the element at index `5000 / 2 = 2500` (0-based) of any
independently sorted copy of the array — the upper of the two middle
positions, not the lower. -/
theorem sort_result_upper_median (src : RandomSource) (oid : Option ℕ) (ts : ℚ) (w : ℕ)
    (l : List ℚ) (hp : (sort_draws src).Perm l) (hs : l.Sorted (· ≤ ·)) :
    process_task ⟨some "sort", oid, ts⟩ w src = .fval (l.getD 2500 0) := by
  have h2 : List.insertionSort (· ≤ ·) (sort_draws src) = l :=
    List.eq_of_perm_of_sorted ((List.perm_insertionSort _ _).trans hp)
      (List.sorted_insertionSort _ _) hs
  rw [sort_result_eq, h2]

/-- C1 witness: the amended theorem applied at `rampSource` and the sorted
copy `rampList`. -/
theorem sort_result_upper_median_witness :
    process_task ⟨some "sort", some 1, 0⟩ 0 rampSource = .fval (rampList.getD 2500 0) :=
  sort_result_upper_median rampSource (some 1) 0 0 rampList
    (by rw [ramp_draws]) ramp_sorted

/-- C4: `start_workers(count)` spawns exactly `min(count, cpu_count)` workers,
with pairwise-distinct identities `0..m-1` (`m` the spawned count), and
appends one handle per spawned worker to the workers list. -/
theorem start_workers_spawn (workers : List WorkerHandle) (count cpu_count : ℕ) :
    (start_workers workers count cpu_count).length = workers.length + min count cpu_count ∧
    (start_workers_ids count cpu_count).length = min count cpu_count ∧
    (start_workers_ids count cpu_count).Nodup ∧
    (∀ i ∈ start_workers_ids count cpu_count, i < min count cpu_count) ∧
    start_workers workers count cpu_count =
      workers ++ (start_workers_ids count cpu_count).map WorkerHandle.mk ∧
    (start_workers [] count cpu_count).map WorkerHandle.worker_id =
      List.range (min count cpu_count) := by
  refine ⟨?_, ?_, List.nodup_range _, ?_, rfl, ?_⟩
  · simp [start_workers, start_workers_ids]
  · simp [start_workers_ids]
  · intro i hi
    exact List.mem_range.mp (by simpa [start_workers_ids] using hi)
  · have hcomp : WorkerHandle.worker_id ∘ WorkerHandle.mk = id := rfl
    simp [start_workers, start_workers_ids, List.map_map, hcomp]

/-- C5: in the worker loop, an empty-queue timeout is caught and the loop goes
on to the next iteration; an exception raised by the dispatch is not caught:
the loop ends at once in `crashed e`, independently of the remaining fuel and
of all later queue events, and the metrics output of the worker is left as
it was — no failure marker is appended and no signal reaches the pool. -/
theorem worker_loop_failure_semantics (running : ℕ → Bool) (take : ℕ → TakeOutcome)
    (dispatch : ℕ → PoolTask → DispatchOutcome) (fuel k : ℕ) (acc : List TaskResult)
    (hrun : running k = true) :
    (take k = .empty →
      worker_function running take dispatch (fuel + 1) k acc =
        worker_function running take dispatch fuel (k + 1) acc) ∧
    (∀ t e, take k = .task t → dispatch k t = .exn e →
      worker_function running take dispatch (fuel + 1) k acc = (.crashed e, acc)) := by
  constructor
  · intro he
    simp [worker_function, hrun, he]
  · intro t e ht hd
    simp [worker_function, hrun, ht, hd]

/-- C5 witness: a worker whose first dequeue yields a task whose dispatch
raises ends as `crashed` with its metrics untouched. -/
theorem worker_loop_failure_semantics_witness :
    worker_function (fun _ => true) (fun _ => TakeOutcome.task ⟨none, none, 0⟩)
      (fun _ _ => DispatchOutcome.exn "boom") (2 + 1) 0 [] = (.crashed "boom", []) :=
  (worker_loop_failure_semantics (fun _ => true) (fun _ => TakeOutcome.task ⟨none, none, 0⟩)
    (fun _ _ => DispatchOutcome.exn "boom") 2 0 [] rfl).2 ⟨none, none, 0⟩ "boom" rfl rfl

theorem foldl_queue_put (q : TaskQueue) (ts : List PoolTask) :
    List.foldl queue_put q ts = q ++ ts := by
  induction ts generalizing q with
  | nil => simp
  | cons t ts ih => simp [queue_put, ih]

theorem drain_eq (n : ℕ) : ∀ q : TaskQueue, q.length ≤ n → drain n q = q := by
  induction n with
  | zero =>
    intro q hq
    rw [List.eq_nil_of_length_eq_zero (Nat.le_zero.mp hq)]
    rfl
  | succ n ih =>
    intro q hq
    cases q with
    | nil => rfl
    | cons t rest =>
      have : rest.length ≤ n := by simpa using hq
      simp [drain, queue_take, ih rest this]

/-- C6: tasks enqueued in order `t1..tn` with no concurrent consumers are
returned by successive `take`s in exactly that order — FIFO, no reordering,
no deduplication, no loss. -/
theorem queue_fifo (ts : List PoolTask) :
    drain ts.length (List.foldl queue_put [] ts) = ts := by
  rw [foldl_queue_put]
  exact drain_eq ts.length ts (le_refl _)

/-- Conservation: results recorded, tasks in flight and tasks still queued
never exceed the number of tasks ever enqueued. -/
theorem pool_conservation (s : PoolState) (hs : Reachable s) :
    s.records.length + s.in_flight.length + s.queue.length ≤ s.enqueued := by
  induction hs with
  | refl => simp [init_state]
  | @tail b c hab hbc ih =>
    cases hbc with
    | start count cpu hn hc => simpa using ih
    | put t => simp; omega
    | dequeue i t rest hw hq hf =>
      rw [hq] at ih
      simp only [List.length_cons] at ih
      simp
      omega
    | record i t src l1 l2 hf =>
      rw [hf] at ih
      simp only [List.length_append, List.length_cons] at ih
      simp
      omega
    | crash i t l1 l2 hf =>
      rw [hf] at ih
      simp only [List.length_append, List.length_cons] at ih
      simp
      omega
    | stop => simpa [stop_workers] using ih

/-- C7: in every reachable state (in particular after shutdown), the total
number of results recorded across all metrics partitions is at most the
number of tasks enqueued. -/
theorem total_results_le_enqueued (s : PoolState) (hs : Reachable s) :
    total_results s ≤ s.enqueued := by
  have h := pool_conservation s hs
  unfold total_results
  omega

/-- A concrete task and a concrete run of the pool: start one worker, enqueue
one task, dequeue it and record its result. -/
def demo_task : PoolTask := ⟨some "hash", some 7, 0⟩

def demo_s1 : PoolState := { init_state with num_workers := min 1 1 }

def demo_s2 : PoolState :=
  { demo_s1 with queue := demo_s1.queue ++ [demo_task], enqueued := demo_s1.enqueued + 1 }

def demo_s3 : PoolState :=
  { demo_s2 with queue := [], in_flight := (0, demo_task) :: demo_s2.in_flight }

def demo_s4 : PoolState :=
  { demo_s3 with
      records := demo_s3.records ++ [(worker_key 0, process_task demo_task 0 rampSource)],
      in_flight := [] }

theorem demo_reachable : Reachable demo_s4 :=
  Relation.ReflTransGen.tail
    (Relation.ReflTransGen.tail
      (Relation.ReflTransGen.tail
        (Relation.ReflTransGen.tail Relation.ReflTransGen.refl
          (PoolStep.start init_state 1 1 rfl Nat.one_pos))
        (PoolStep.put demo_s1 demo_task))
      (PoolStep.dequeue demo_s2 0 demo_task [] (by decide) rfl
        (by intro p hp; simp [demo_s2, demo_s1, init_state] at hp)))
    (PoolStep.record demo_s3 0 demo_task rampSource [] [] rfl)

/-- C7 witness: the bound at the concrete reachable state `demo_s4`. -/
theorem total_results_le_enqueued_witness :
    total_results demo_s4 ≤ demo_s4.enqueued :=
  total_results_le_enqueued demo_s4 demo_reachable

/-- C8: the `running` flag starts `true`, `stop_workers` sets it `false`, and
no core operation ever sets it back: from any state with `running = false`,
every sequence of steps keeps it `false` — the transition is one-way. -/
theorem running_flag_one_way :
    init_state.running = true ∧
    (∀ s : PoolState, (stop_workers s).running = false) ∧
    (∀ s s' : PoolState, s.running = false →
      Relation.ReflTransGen PoolStep s s' → s'.running = false) := by
  refine ⟨rfl, fun s => rfl, fun s s' h hsteps => ?_⟩
  induction hsteps with
  | refl => exact h
  | @tail b c hab hbc ih =>
    cases hbc with
    | start count cpu hn hc => simpa using ih
    | put t => simpa using ih
    | dequeue i t rest hw hq hf => simpa using ih
    | record i t src l1 l2 hf => simpa using ih
    | crash i t l1 l2 hf => simpa using ih
    | stop => rfl

/-- C8 witness: stopping the fresh pool leaves `running = false`, and it stays
`false` under the (empty) continuation. -/
theorem running_flag_one_way_witness : (stop_workers init_state).running = false :=
  running_flag_one_way.2.2 (stop_workers init_state) (stop_workers init_state) rfl
    Relation.ReflTransGen.refl

/-- Invariant: every in-flight task belongs to a spawned worker, and every
recorded metrics key is `worker_key i` for a spawned worker `i`. -/
theorem pool_keys_invariant (s : PoolState) (hs : Reachable s) :
    (∀ p ∈ s.in_flight, p.1 < s.num_workers) ∧
    (∀ kv ∈ s.records, ∃ i, i < s.num_workers ∧ kv.1 = worker_key i) := by
  induction hs with
  | refl => simp [init_state]
  | @tail b c hab hbc ih =>
    obtain ⟨ihf, ihr⟩ := ih
    cases hbc with
    | start count cpu hn hc =>
      refine ⟨fun p hp => ?_, fun kv hkv => ?_⟩
      · exact absurd (ihf p (by simpa using hp)) (by simp [hn])
      · obtain ⟨i, hi, -⟩ := ihr kv (by simpa using hkv)
        exact absurd hi (by simp [hn])
    | put t =>
      refine ⟨fun p hp => ihf p (by simpa using hp), fun kv hkv => ?_⟩
      simpa using ihr kv (by simpa using hkv)
    | dequeue i t rest hw hq hf =>
      refine ⟨fun p hp => ?_, fun kv hkv => by simpa using ihr kv (by simpa using hkv)⟩
      simp only [List.mem_cons] at hp
      rcases hp with h | h
      · simpa [h] using hw
      · simpa using ihf p h
    | record i t src l1 l2 hf =>
      have hin : (i, t) ∈ b.in_flight := by rw [hf]; simp
      refine ⟨fun p hp => ?_, fun kv hkv => ?_⟩
      · have hmem : p ∈ b.in_flight := by
          rw [hf]
          simp only [List.mem_append, List.mem_cons]
          rcases List.mem_append.mp (by simpa using hp : p ∈ l1 ++ l2) with h | h
          · exact Or.inl h
          · exact Or.inr (Or.inr h)
        simpa using ihf p hmem
      · rcases List.mem_append.mp (by simpa using hkv :
            kv ∈ b.records ++ [(worker_key i, process_task t i src)]) with h | h
        · simpa using ihr kv (by simpa using h)
        · refine ⟨i, ?_, ?_⟩
          · simpa using ihf (i, t) hin
          · simp [List.mem_singleton.mp h]
    | crash i t l1 l2 hf =>
      refine ⟨fun p hp => ?_, fun kv hkv => by simpa using ihr kv (by simpa using hkv)⟩
      have hmem : p ∈ b.in_flight := by
        rw [hf]
        simp only [List.mem_append, List.mem_cons]
        rcases List.mem_append.mp (by simpa using hp : p ∈ l1 ++ l2) with h | h
        · exact Or.inl h
        · exact Or.inr (Or.inr h)
      simpa using ihf p hmem
    | stop =>
      refine ⟨fun p hp => ?_, fun kv hkv => ?_⟩
      · simpa [stop_workers] using ihf p (by simpa [stop_workers] using hp)
      · simpa [stop_workers] using ihr kv (by simpa [stop_workers] using hkv)

/-- C9: every key under which a result is ever recorded is `worker_key i` for
a worker index `i` in `0..N-1`, `N` the number of spawned workers. -/
theorem metrics_keys_are_worker_indices (s : PoolState) (hs : Reachable s)
    (kv : String × TaskResult) (hkv : kv ∈ s.records) :
    ∃ i, i < s.num_workers ∧ kv.1 = worker_key i :=
  (pool_keys_invariant s hs).2 kv hkv

/-- C9 witness: the key of the one record in `demo_s4` is a worker index below
`num_workers`. -/
theorem metrics_keys_are_worker_indices_witness :
    ∃ i, i < demo_s4.num_workers ∧
      (worker_key 0, process_task demo_task 0 rampSource).1 = worker_key i :=
  metrics_keys_are_worker_indices demo_s4 demo_reachable
    (worker_key 0, process_task demo_task 0 rampSource)
    (by simp [demo_s4, demo_s3, demo_s2, demo_s1, init_state])

/-- Unfolding of the default branch: a task with no "type" key is dispatched
to the final `else` and yields the next `random.random()` draw. -/
theorem process_task_default_unfold (oid : Option ℕ) (ts : ℚ) (w : ℕ) (src : RandomSource) :
    process_task ⟨none, oid, ts⟩ w src = .fval (src.floats 0) :=
  rfl

/-- Unfolding of the id default: a task with no "id" key is processed with
`random.randint(1, 1000000)` as its id. -/
theorem effective_id_default_unfold (oty : Option String) (ts : ℚ) (src : RandomSource) :
    effective_id ⟨oty, none, ts⟩ src = randint src 0 1 1000000 :=
  rfl

/-- C10: `process_task` is total — it returns a result for every task and
worker id; a task with no kind is dispatched to the default branch and yields
a pseudo-random float in `[0, 1)`; a task with no id is processed with a
randomly assigned id in `[1, 1000000]`. -/
theorem process_task_total_defaults (src : RandomSource) (w : ℕ) (t : PoolTask) :
    (∃ r, process_task t w src = r) ∧
    (t.type? = none → process_task t w src = .fval (src.floats 0) ∧
      0 ≤ src.floats 0 ∧ src.floats 0 < 1) ∧
    (t.id? = none → effective_id t src = randint src 0 1 1000000 ∧
      1 ≤ effective_id t src ∧ effective_id t src ≤ 1000000) := by
  obtain ⟨oty, oid, ts⟩ := t
  refine ⟨⟨_, rfl⟩, fun hty => ?_, fun hid => ?_⟩
  · cases hty
    exact ⟨process_task_default_unfold oid ts w src,
      (src.floats_mem 0).1, (src.floats_mem 0).2⟩
  · cases hid
    refine ⟨effective_id_default_unfold oty ts src, ?_, ?_⟩
    · exact randint_lower src 0 1 1000000
    · exact randint_upper src 0 1 1000000 (by norm_num)
  
/-- C10 witness: the defaults at the concrete task with both keys missing and
the concrete source `rampSource`. -/
theorem process_task_total_defaults_witness :
    process_task ⟨none, none, 0⟩ 3 rampSource = .fval (rampSource.floats 0) ∧
    1 ≤ effective_id ⟨none, none, 0⟩ rampSource ∧
    effective_id ⟨none, none, 0⟩ rampSource ≤ 1000000 :=
  ⟨((process_task_total_defaults rampSource 3 ⟨none, none, 0⟩).2.1 rfl).1,
   ((process_task_total_defaults rampSource 3 ⟨none, none, 0⟩).2.2 rfl).2.1,
   ((process_task_total_defaults rampSource 3 ⟨none, none, 0⟩).2.2 rfl).2.2⟩
